import Mathlib

/-!
Shallow embedding of `src/contracts/MedicalRecords.sol` (Solidity ^0.8.19).

Addresses are modelled as `Nat` (the zero address is `0`), `block.timestamp`
as a `Nat` supplied by the caller of each state-changing operation, and the
four Solidity mappings as total functions with the Solidity default values
(`""`, `0`, `false`) at unset keys.  A `require` failure reverts the call:
the operation returns `Except.error e` and the trace semantics (`exec1`)
leaves the state unchanged.  Counters are `Nat`; the 2^256 wrap of the EVM
is unreachable for the increment-by-one counters of this contract.
-/

namespace MedicalRecords

/-- The `MedicalRecord` struct of the contract (line 11). -/
structure MedicalRecord where
  recordId : String
  encryptedDataHash : String
  recordType : String
  timestamp : Nat
  uploadedBy : Nat
  isActive : Bool
  metadata : String
deriving DecidableEq

/-- Solidity default value of a `MedicalRecord` storage slot. -/
def defaultRecord : MedicalRecord :=
  { recordId := ""
    encryptedDataHash := ""
    recordType := ""
    timestamp := 0
    uploadedBy := 0
    isActive := false
    metadata := "" }

/-- The contract storage (lines 22-29). -/
structure ContractState where
  patientRecords : Nat → Nat → MedicalRecord
  patientRecordCount : Nat → Nat
  recordIdExists : String → Bool
  authorizedPatients : Nat → Bool
  owner : Nat
  patientRegistryContract : Nat
  totalRecordsStored : Nat

/-- Error kinds of §7 of the spec, matched to the contract's `require` sites. -/
inductive Err where
  | Unauthorized
  | InvalidArgument
  | AlreadyExists
  | OutOfRange
  | InvalidState
deriving DecidableEq

/-- The `onlyAuthorizedPatient` modifier (line 68): allow-list membership OR owner. -/
def gatePasses (s : ContractState) (sender : Nat) : Prop :=
  s.authorizedPatients sender = true ∨ sender = s.owner

instance (s : ContractState) (sender : Nat) : Decidable (gatePasses s sender) := by
  unfold gatePasses; infer_instance

/-- `constructor()` (line 84): deployer becomes owner, all mappings empty. -/
def initialState (deployer : Nat) : ContractState :=
  { patientRecords := fun _ _ => defaultRecord
    patientRecordCount := fun _ => 0
    recordIdExists := fun _ => false
    authorizedPatients := fun _ => false
    owner := deployer
    patientRegistryContract := 0
    totalRecordsStored := 0 }

/-- `setPatientRegistryContract` (line 91). -/
def setPatientRegistryContract (s : ContractState) (sender addr : Nat) :
    Except Err ContractState :=
  if sender = s.owner then
    .ok { s with patientRegistryContract := addr }
  else .error .Unauthorized

/-- `authorizePatient` (line 101): onlyOwner, rejects the zero address,
sets allow-list membership to true. -/
def authorizePatient (s : ContractState) (sender addr : Nat) :
    Except Err ContractState :=
  if sender = s.owner then
    if addr ≠ 0 then
      .ok { s with
        authorizedPatients := fun a => if a = addr then true else s.authorizedPatients a }
    else .error .InvalidArgument
  else .error .Unauthorized

/-- `deauthorizePatient` (line 116): onlyOwner, clears membership
(no zero-address check in the source). -/
def deauthorizePatient (s : ContractState) (sender addr : Nat) :
    Except Err ContractState :=
  if sender = s.owner then
    .ok { s with
      authorizedPatients := fun a => if a = addr then false else s.authorizedPatients a }
  else .error .Unauthorized

/-- `addMedicalRecord` (line 130): gate, non-empty id and hash, globally fresh id;
then writes the new record at index `patientRecordCount[msg.sender]`, marks the
id used, and increments both counters. -/
def addMedicalRecord (s : ContractState) (sender time : Nat)
    (rid dataHash recType meta : String) : Except Err ContractState :=
  if gatePasses s sender then
    if rid ≠ "" then
      if dataHash ≠ "" then
        if s.recordIdExists rid = false then
          let idx := s.patientRecordCount sender
          .ok { s with
            patientRecords := fun a i =>
              if a = sender ∧ i = idx then
                { recordId := rid
                  encryptedDataHash := dataHash
                  recordType := recType
                  timestamp := time
                  uploadedBy := sender
                  isActive := true
                  metadata := meta }
              else s.patientRecords a i
            recordIdExists := fun r => if r = rid then true else s.recordIdExists r
            patientRecordCount := fun a =>
              if a = sender then s.patientRecordCount a + 1 else s.patientRecordCount a
            totalRecordsStored := s.totalRecordsStored + 1 }
        else .error .AlreadyExists
      else .error .InvalidArgument
    else .error .InvalidArgument
  else .error .Unauthorized

/-- `updateMedicalRecord` (line 170): gate, index in range, record active,
non-empty hash; then replaces `encryptedDataHash` and `metadata` in place. -/
def updateMedicalRecord (s : ContractState) (sender idx : Nat)
    (dataHash meta : String) : Except Err ContractState :=
  if gatePasses s sender then
    if idx < s.patientRecordCount sender then
      if (s.patientRecords sender idx).isActive = true then
        if dataHash ≠ "" then
          .ok { s with
            patientRecords := fun a i =>
              if a = sender ∧ i = idx then
                { s.patientRecords a i with
                  encryptedDataHash := dataHash
                  metadata := meta }
              else s.patientRecords a i }
        else .error .InvalidArgument
      else .error .InvalidState
    else .error .OutOfRange
  else .error .Unauthorized

/-- `deactivateMedicalRecord` (line 194): gate, index in range, record active;
then flips `isActive` to false. -/
def deactivateMedicalRecord (s : ContractState) (sender idx : Nat) :
    Except Err ContractState :=
  if gatePasses s sender then
    if idx < s.patientRecordCount sender then
      if (s.patientRecords sender idx).isActive = true then
        .ok { s with
          patientRecords := fun a i =>
            if a = sender ∧ i = idx then
              { s.patientRecords a i with isActive := false }
            else s.patientRecords a i }
      else .error .InvalidState
    else .error .OutOfRange
  else .error .Unauthorized

/-- `transferOwnership` (line 309): onlyOwner, rejects the zero address,
replaces the owner. -/
def transferOwnership (s : ContractState) (sender addr : Nat) :
    Except Err ContractState :=
  if sender = s.owner then
    if addr ≠ 0 then
      .ok { s with owner := addr }
    else .error .InvalidArgument
  else .error .Unauthorized

/-- `getMedicalRecord` (line 216): patient-or-owner view, index in range,
returns the full stored record, active or not. -/
def getMedicalRecord (s : ContractState) (sender patient idx : Nat) :
    Except Err MedicalRecord :=
  if sender = patient ∨ sender = s.owner then
    if idx < s.patientRecordCount patient then
      .ok (s.patientRecords patient idx)
    else .error .OutOfRange
  else .error .Unauthorized

/-- First pass of `getPatientRecordIds` (lines 268-273): count the active
records among indices `0..n-1`. -/
def countActive (s : ContractState) (patient : Nat) : Nat → Nat
  | 0 => 0
  | n + 1 =>
      countActive s patient n +
        (if (s.patientRecords patient n).isActive then 1 else 0)

/-- Second pass of `getPatientRecordIds` (lines 276-283): walk indices
`0..n-1` in order and collect the ids of active records; the sequential
array writes at `index`, `index+1`, ... are list appends. -/
def collectActiveIds (s : ContractState) (patient : Nat) : Nat → List String
  | 0 => []
  | n + 1 =>
      collectActiveIds s patient n ++
        (if (s.patientRecords patient n).isActive
          then [(s.patientRecords patient n).recordId] else [])

/-- `getPatientRecordIds` (line 259): patient-or-owner view, two-pass filter
over the caller's sequence. -/
def getPatientRecordIds (s : ContractState) (sender patient : Nat) :
    Except Err (List String) :=
  if sender = patient ∨ sender = s.owner then
    .ok (collectActiveIds s patient (s.patientRecordCount patient))
  else .error .Unauthorized

/-- `getPatientRecordCount` (line 248). -/
def getPatientRecordCount (s : ContractState) (patient : Nat) : Nat :=
  s.patientRecordCount patient

/-- `isPatientAuthorized` (line 291). -/
def isPatientAuthorized (s : ContractState) (patient : Nat) : Bool :=
  s.authorizedPatients patient

/-- `getTotalRecords` (line 302). -/
def getTotalRecords (s : ContractState) : Nat :=
  s.totalRecordsStored

/-- `getMyRecordCount` (line 317). -/
def getMyRecordCount (s : ContractState) (sender : Nat) : Nat :=
  s.patientRecordCount sender

/-- `amIAuthorized` (line 324): raw allow-list membership of the caller. -/
def amIAuthorized (s : ContractState) (sender : Nat) : Bool :=
  s.authorizedPatients sender

/-- One state-changing external call, with its sender and (for `add`) the
block timestamp. -/
inductive Op where
  | setRegistry (sender addr : Nat)
  | authorize (sender addr : Nat)
  | deauthorize (sender addr : Nat)
  | add (sender time : Nat) (rid dataHash recType meta : String)
  | update (sender idx : Nat) (dataHash meta : String)
  | deactivate (sender idx : Nat)
  | transferOwner (sender addr : Nat)

/-- Dispatch one call. -/
def step (s : ContractState) : Op → Except Err ContractState
  | .setRegistry sender addr => setPatientRegistryContract s sender addr
  | .authorize sender addr => authorizePatient s sender addr
  | .deauthorize sender addr => deauthorizePatient s sender addr
  | .add sender time rid dataHash recType meta =>
      addMedicalRecord s sender time rid dataHash recType meta
  | .update sender idx dataHash meta => updateMedicalRecord s sender idx dataHash meta
  | .deactivate sender idx => deactivateMedicalRecord s sender idx
  | .transferOwner sender addr => transferOwnership s sender addr

/-- One call with EVM revert semantics: a failed call leaves storage unchanged. -/
def exec1 (s : ContractState) (op : Op) : ContractState :=
  match step s op with
  | .ok s' => s'
  | .error _ => s

/-- A sequence of calls, each committed or reverted in order. -/
def exec (s : ContractState) : List Op → ContractState
  | [] => s
  | op :: ops => exec (exec1 s op) ops

/-- States reachable from deployment by some call sequence. -/
def Reachable (deployer : Nat) (s : ContractState) : Prop :=
  ∃ ops : List Op, s = exec (initialState deployer) ops

/-- Record-id bookkeeping invariant of the ledger: every stored record's id is
marked used and non-empty, every used id is stored somewhere, and stored ids
are pairwise distinct across all addresses and indices. -/
def RecordsInv (s : ContractState) : Prop :=
  (∀ a i, i < s.patientRecordCount a →
      s.recordIdExists (s.patientRecords a i).recordId = true) ∧
  (∀ a i, i < s.patientRecordCount a → (s.patientRecords a i).recordId ≠ "") ∧
  (∀ rid, s.recordIdExists rid = true →
      ∃ a i, i < s.patientRecordCount a ∧ (s.patientRecords a i).recordId = rid) ∧
  (∀ a i b j, i < s.patientRecordCount a → j < s.patientRecordCount b →
      (a ≠ b ∨ i ≠ j) →
      (s.patientRecords a i).recordId ≠ (s.patientRecords b j).recordId)

/-- Whether `op` is an `add` call by `a` that succeeds in state `s`. -/
def isSuccAddBy (s : ContractState) (a : Nat) : Op → Bool
  | .add sender time rid dataHash recType meta =>
      if sender = a
        then (addMedicalRecord s sender time rid dataHash recType meta).isOk
        else false
  | _ => false

/-- Number of successful `add` calls by `a` along a call sequence run from `s`. -/
def numSuccAdds (s : ContractState) (a : Nat) : List Op → Nat
  | [] => 0
  | op :: ops =>
      (if isSuccAddBy s a op then 1 else 0) + numSuccAdds (exec1 s op) a ops

/-- Specification-side description of `getPatientRecordIds`: the ids of the
active records of `patient`, in index order. -/
def activeIdsSpec (s : ContractState) (patient : Nat) : List String :=
  ((List.range (s.patientRecordCount patient)).filter
      (fun i => (s.patientRecords patient i).isActive)).map
    (fun i => (s.patientRecords patient i).recordId)

/-! ## State-shape lemmas for successful calls -/

/-- Reverted calls leave the state unchanged. -/
theorem exec1_of_error (s : ContractState) (op : Op) (e : Err)
    (h : step s op = .error e) : exec1 s op = s := by
  simp [exec1, h]

/-- Shape of the state after a successful `addMedicalRecord`. -/
theorem add_success_state (s : ContractState) (m time : Nat)
    (rid dataHash recType meta : String)
    (h1 : gatePasses s m) (h2 : rid ≠ "") (h3 : dataHash ≠ "")
    (h4 : s.recordIdExists rid = false) :
    exec1 s (Op.add m time rid dataHash recType meta) =
      { s with
        patientRecords := fun a i =>
          if a = m ∧ i = s.patientRecordCount m then
            { recordId := rid
              encryptedDataHash := dataHash
              recordType := recType
              timestamp := time
              uploadedBy := m
              isActive := true
              metadata := meta }
          else s.patientRecords a i
        recordIdExists := fun r => if r = rid then true else s.recordIdExists r
        patientRecordCount := fun a =>
          if a = m then s.patientRecordCount a + 1 else s.patientRecordCount a
        totalRecordsStored := s.totalRecordsStored + 1 } := by
  simp [exec1, step, addMedicalRecord, h1, h2, h3, h4]

/-- Shape of the state after a successful `updateMedicalRecord`. -/
theorem update_success_state (s : ContractState) (m idx : Nat)
    (dataHash meta : String)
    (h1 : gatePasses s m) (h2 : idx < s.patientRecordCount m)
    (h3 : (s.patientRecords m idx).isActive = true) (h4 : dataHash ≠ "") :
    exec1 s (Op.update m idx dataHash meta) =
      { s with
        patientRecords := fun a i =>
          if a = m ∧ i = idx then
            { s.patientRecords a i with
              encryptedDataHash := dataHash
              metadata := meta }
          else s.patientRecords a i } := by
  simp [exec1, step, updateMedicalRecord, h1, h2, h3, h4]

/-- Shape of the state after a successful `deactivateMedicalRecord`. -/
theorem deactivate_success_state (s : ContractState) (m idx : Nat)
    (h1 : gatePasses s m) (h2 : idx < s.patientRecordCount m)
    (h3 : (s.patientRecords m idx).isActive = true) :
    exec1 s (Op.deactivate m idx) =
      { s with
        patientRecords := fun a i =>
          if a = m ∧ i = idx then
            { s.patientRecords a i with isActive := false }
          else s.patientRecords a i } := by
  simp [exec1, step, deactivateMedicalRecord, h1, h2, h3]

/-! ## Direct functional-correctness theorems -/

/-- Claim C2: for every caller passing the authorization gate, with non-empty
`recordId` and `dataHash` and a globally fresh `recordId`, `addMedicalRecord`
succeeds, writes the new record at index equal to the caller's current count
with `isActive = true`, `uploadedBy = caller`, `timestamp = current block time`,
marks the id as used, increments the caller's count by exactly one, and
increments the global total by exactly one. -/
theorem addRecord_success_postcondition
    (s : ContractState) (sender time : Nat) (rid dataHash recType meta : String)
    (hgate : gatePasses s sender) (hrid : rid ≠ "") (hdh : dataHash ≠ "")
    (hfresh : s.recordIdExists rid = false) :
    (addMedicalRecord s sender time rid dataHash recType meta).isOk = true ∧
    (exec1 s (Op.add sender time rid dataHash recType meta)).patientRecords sender
        (s.patientRecordCount sender) =
      { recordId := rid
        encryptedDataHash := dataHash
        recordType := recType
        timestamp := time
        uploadedBy := sender
        isActive := true
        metadata := meta } ∧
    (exec1 s (Op.add sender time rid dataHash recType meta)).recordIdExists rid = true ∧
    (exec1 s (Op.add sender time rid dataHash recType meta)).patientRecordCount sender =
      s.patientRecordCount sender + 1 ∧
    (exec1 s (Op.add sender time rid dataHash recType meta)).totalRecordsStored =
      s.totalRecordsStored + 1 := by
  simp only [addMedicalRecord, exec1, step, if_pos hgate, if_pos hrid, if_pos hdh,
    if_pos hfresh]
  refine ⟨rfl, ?_, ?_, ?_, ?_⟩ <;> simp

/-- Witness for C2 at a concrete deployment. -/
theorem addRecord_success_postcondition_witness :
    (addMedicalRecord (initialState 0) 0 5 "r1" "h1" "lab" "m").isOk = true :=
  (addRecord_success_postcondition (initialState 0) 0 5 "r1" "h1" "lab" "m"
    (Or.inr rfl) (by decide) (by decide) rfl).1

/-- Claim C4: a successful `updateMedicalRecord` changes only the
`encryptedDataHash` and `metadata` fields of the targeted record; the record's
`timestamp`, `recordId`, `recordType`, `uploadedBy` and `isActive` fields, all
other records, all counts, the authorization set, the owner and the used-id set
are unchanged. -/
theorem updateRecord_frame
    (s : ContractState) (sender idx : Nat) (dataHash meta : String)
    (h : (updateMedicalRecord s sender idx dataHash meta).isOk = true) :
    ((exec1 s (Op.update sender idx dataHash meta)).patientRecords sender idx).encryptedDataHash
        = dataHash ∧
    ((exec1 s (Op.update sender idx dataHash meta)).patientRecords sender idx).metadata = meta ∧
    ((exec1 s (Op.update sender idx dataHash meta)).patientRecords sender idx).timestamp
        = (s.patientRecords sender idx).timestamp ∧
    ((exec1 s (Op.update sender idx dataHash meta)).patientRecords sender idx).recordId
        = (s.patientRecords sender idx).recordId ∧
    ((exec1 s (Op.update sender idx dataHash meta)).patientRecords sender idx).recordType
        = (s.patientRecords sender idx).recordType ∧
    ((exec1 s (Op.update sender idx dataHash meta)).patientRecords sender idx).uploadedBy
        = (s.patientRecords sender idx).uploadedBy ∧
    ((exec1 s (Op.update sender idx dataHash meta)).patientRecords sender idx).isActive
        = (s.patientRecords sender idx).isActive ∧
    (∀ a i, a ≠ sender ∨ i ≠ idx →
        (exec1 s (Op.update sender idx dataHash meta)).patientRecords a i
          = s.patientRecords a i) ∧
    (∀ a, (exec1 s (Op.update sender idx dataHash meta)).patientRecordCount a
        = s.patientRecordCount a) ∧
    (exec1 s (Op.update sender idx dataHash meta)).totalRecordsStored
        = s.totalRecordsStored ∧
    (∀ a, (exec1 s (Op.update sender idx dataHash meta)).authorizedPatients a
        = s.authorizedPatients a) ∧
    (exec1 s (Op.update sender idx dataHash meta)).owner = s.owner ∧
    (∀ r, (exec1 s (Op.update sender idx dataHash meta)).recordIdExists r
        = s.recordIdExists r) := by
  unfold updateMedicalRecord at h
  split_ifs at h with h1 h2 h3 h4
  · simp only [exec1, step, updateMedicalRecord, if_pos h1, if_pos h2, if_pos h3, if_pos h4]
    refine ⟨by simp, by simp, by simp, by simp, by simp, by simp, by simp, ?_, by simp,
      by simp, by simp, by simp, by simp⟩
    intro a i hai
    have : ¬(a = sender ∧ i = idx) := by tauto
    simp [this]
  all_goals simp [Except.isOk, Except.toBool] at h

/-- Witness for C4 on a concrete one-record state. -/
theorem updateRecord_frame_witness :
    ((exec1 (exec (initialState 0) [Op.add 0 1 "r1" "h1" "lab" "m"])
        (Op.update 0 0 "h2" "m2")).patientRecords 0 0).encryptedDataHash = "h2" :=
  (updateRecord_frame (exec (initialState 0) [Op.add 0 1 "r1" "h1" "lab" "m"])
    0 0 "h2" "m2" (by decide)).1

/-- Claim C5: for every caller passing the authorization gate,
`updateMedicalRecord` fails with `OutOfRange` if the index is at least the
caller's count, with `InvalidState` if the targeted record is inactive, and
with `InvalidArgument` if `dataHash` is empty (checks performed in that
order); every failure reverts, so the targeted record's `encryptedDataHash`
and `metadata` are unchanged. -/
theorem updateRecord_failure_behaviour
    (s : ContractState) (sender idx : Nat) (dataHash meta : String)
    (hgate : gatePasses s sender) :
    (s.patientRecordCount sender ≤ idx →
        updateMedicalRecord s sender idx dataHash meta = .error .OutOfRange) ∧
    (idx < s.patientRecordCount sender →
        (s.patientRecords sender idx).isActive = false →
        updateMedicalRecord s sender idx dataHash meta = .error .InvalidState) ∧
    (idx < s.patientRecordCount sender →
        (s.patientRecords sender idx).isActive = true → dataHash = "" →
        updateMedicalRecord s sender idx dataHash meta = .error .InvalidArgument) ∧
    (∀ e, updateMedicalRecord s sender idx dataHash meta = .error e →
        exec1 s (Op.update sender idx dataHash meta) = s ∧
        ((exec1 s (Op.update sender idx dataHash meta)).patientRecords sender idx).encryptedDataHash
          = (s.patientRecords sender idx).encryptedDataHash ∧
        ((exec1 s (Op.update sender idx dataHash meta)).patientRecords sender idx).metadata
          = (s.patientRecords sender idx).metadata) := by
  refine ⟨?_, ?_, ?_, ?_⟩
  · intro hidx
    simp [updateMedicalRecord, if_pos hgate, Nat.not_lt.mpr hidx]
  · intro hidx hact
    simp [updateMedicalRecord, if_pos hgate, hidx, hact]
  · intro hidx hact hdh
    simp [updateMedicalRecord, if_pos hgate, hidx, hact, hdh]
  · intro e he
    have hrev : exec1 s (Op.update sender idx dataHash meta) = s := by
      simp [exec1, step, he]
    exact ⟨hrev, by rw [hrev], by rw [hrev]⟩

/-- Witness for C5: out-of-range update on a concrete one-record state. -/
theorem updateRecord_failure_behaviour_witness :
    updateMedicalRecord (exec (initialState 0) [Op.add 0 1 "r1" "h1" "lab" "m"])
      0 5 "h2" "m2" = Except.error Err.OutOfRange :=
  (updateRecord_failure_behaviour (exec (initialState 0) [Op.add 0 1 "r1" "h1" "lab" "m"])
    0 5 "h2" "m2" (Or.inr rfl)).1 (by decide)

/-- Claim C7: a non-owner calling `authorizePatient` fails with `Unauthorized`
and the state (hence the authorization set) is unchanged; the owner calling it
with the zero address fails with `InvalidArgument` and the state is unchanged;
the owner calling it with a non-zero address succeeds and sets that address's
membership to true, leaving other memberships unchanged. -/
theorem authorize_owner_only (s : ContractState) (sender addr : Nat) :
    (sender ≠ s.owner →
        authorizePatient s sender addr = .error .Unauthorized ∧
        exec1 s (Op.authorize sender addr) = s) ∧
    (sender = s.owner → addr = 0 →
        authorizePatient s sender addr = .error .InvalidArgument ∧
        exec1 s (Op.authorize sender addr) = s) ∧
    (sender = s.owner → addr ≠ 0 →
        (authorizePatient s sender addr).isOk = true ∧
        (exec1 s (Op.authorize sender addr)).authorizedPatients addr = true ∧
        (∀ b, b ≠ addr →
          (exec1 s (Op.authorize sender addr)).authorizedPatients b
            = s.authorizedPatients b)) := by
  refine ⟨?_, ?_, ?_⟩
  · intro hno
    have he : authorizePatient s sender addr = .error .Unauthorized := by
      simp [authorizePatient, hno]
    exact ⟨he, by simp [exec1, step, he]⟩
  · intro hyes hzero
    have he : authorizePatient s sender addr = .error .InvalidArgument := by
      simp [authorizePatient, hyes, hzero]
    exact ⟨he, by simp [exec1, step, he]⟩
  · intro hyes hnz
    simp only [authorizePatient, exec1, step, if_pos hyes, if_pos hnz]
    refine ⟨rfl, by simp, ?_⟩
    intro b hb
    simp [hb]

/-- Witness for C7: a non-owner call fails with `Unauthorized`. -/
theorem authorize_owner_only_witness :
    authorizePatient (initialState 1) 2 3 = Except.error Err.Unauthorized :=
  ((authorize_owner_only (initialState 1) 2 3).1 (by decide)).1

/-- Claim C8 counterexample: the owner transferring ownership to itself
satisfies the claim's hypotheses (owner caller, non-zero address), yet the
prior owner keeps its privileges: the subsequent `authorizePatient` call by
the prior owner succeeds instead of failing with `Unauthorized`. -/
theorem transferOwnership_selftransfer_counterexample :
    (transferOwnership (initialState 1) 1 1).isOk = true ∧
    (exec1 (initialState 1) (Op.transferOwner 1 1)).owner = 1 ∧
    (authorizePatient (exec1 (initialState 1) (Op.transferOwner 1 1)) 1 2).isOk
      = true := by
  decide

/-- Claim C8 (amended): called by the current owner with a non-zero address,
`transferOwnership` replaces the singleton owner with that address, and — when
the new owner differs from the prior owner — the prior owner immediately loses
every owner-only privilege (`authorizePatient`, `deauthorizePatient`,
`transferOwnership`, `setPatientRegistryContract` all fail with
`Unauthorized`); called with the zero address it fails with `InvalidArgument`
and the owner is unchanged. -/
theorem transferOwnership_correct (s : ContractState) (sender addr : Nat)
    (hown : sender = s.owner) :
    (addr = 0 →
        transferOwnership s sender addr = .error .InvalidArgument ∧
        exec1 s (Op.transferOwner sender addr) = s) ∧
    (addr ≠ 0 →
        (transferOwnership s sender addr).isOk = true ∧
        (exec1 s (Op.transferOwner sender addr)).owner = addr ∧
        (sender ≠ addr →
          (∀ b, authorizePatient (exec1 s (Op.transferOwner sender addr)) sender b
              = .error .Unauthorized) ∧
          (∀ b, deauthorizePatient (exec1 s (Op.transferOwner sender addr)) sender b
              = .error .Unauthorized) ∧
          (∀ b, transferOwnership (exec1 s (Op.transferOwner sender addr)) sender b
              = .error .Unauthorized) ∧
          (∀ b, setPatientRegistryContract (exec1 s (Op.transferOwner sender addr)) sender b
              = .error .Unauthorized))) := by
  refine ⟨?_, ?_⟩
  · intro hzero
    have he : transferOwnership s sender addr = .error .InvalidArgument := by
      simp [transferOwnership, hown, hzero]
    exact ⟨he, by simp [exec1, step, he]⟩
  · intro hnz
    have hstep : exec1 s (Op.transferOwner sender addr) = { s with owner := addr } := by
      simp [exec1, step, transferOwnership, hown, hnz]
    refine ⟨by simp [transferOwnership, hown, hnz, Except.isOk, Except.toBool],
      by rw [hstep], ?_⟩
    intro hne
    rw [hstep]
    exact ⟨fun b => by simp [authorizePatient, hne],
      fun b => by simp [deauthorizePatient, hne],
      fun b => by simp [transferOwnership, hne],
      fun b => by simp [setPatientRegistryContract, hne]⟩

/-- Witness for the amended C8: after transferring from 1 to 2, the prior
owner's authorize call fails with `Unauthorized`. -/
theorem transferOwnership_correct_witness :
    authorizePatient (exec1 (initialState 1) (Op.transferOwner 1 2)) 1 3
      = Except.error Err.Unauthorized :=
  ((((transferOwnership_correct (initialState 1) 1 2 rfl).2 (by decide)).2.2)
    (by decide)).1 3

/-- Claim C10: `amIAuthorized` and `isPatientAuthorized` report raw allow-list
membership only, not effective write permission: for an owner address never
explicitly authorized both return false, yet the write-path gate
(`onlyAuthorizedPatient`) admits that owner. -/
theorem amIAuthorized_raw_membership (s : ContractState) (sender : Nat)
    (hown : sender = s.owner) (hmem : s.authorizedPatients sender = false) :
    amIAuthorized s sender = false ∧
    isPatientAuthorized s sender = false ∧
    gatePasses s sender :=
  ⟨hmem, hmem, Or.inr hown⟩

/-- Witness for C10 at a fresh deployment by address 3. -/
theorem amIAuthorized_raw_membership_witness :
    amIAuthorized (initialState 3) 3 = false ∧
    isPatientAuthorized (initialState 3) 3 = false ∧
    gatePasses (initialState 3) 3 :=
  amIAuthorized_raw_membership (initialState 3) 3 rfl rfl

/-! ## Temporal claim: deactivation is one-way -/

/-- One call preserves "record `(a, i)` exists and is inactive". -/
theorem inactive_stable_exec1 (s : ContractState) (a i : Nat) (op : Op)
    (hi : i < s.patientRecordCount a)
    (hin : (s.patientRecords a i).isActive = false) :
    i < (exec1 s op).patientRecordCount a ∧
    ((exec1 s op).patientRecords a i).isActive = false := by
  cases op with
  | setRegistry sender addr =>
      simp only [exec1, step, setPatientRegistryContract]
      split_ifs <;> exact ⟨hi, hin⟩
  | authorize sender addr =>
      simp only [exec1, step, authorizePatient]
      split_ifs <;> exact ⟨hi, hin⟩
  | deauthorize sender addr =>
      simp only [exec1, step, deauthorizePatient]
      split_ifs <;> exact ⟨hi, hin⟩
  | transferOwner sender addr =>
      simp only [exec1, step, transferOwnership]
      split_ifs <;> exact ⟨hi, hin⟩
  | add m time rid dataHash recType meta =>
      by_cases h1 : gatePasses s m
      · by_cases h2 : rid ≠ ""
        · by_cases h3 : dataHash ≠ ""
          · by_cases h4 : s.recordIdExists rid = false
            · rw [add_success_state s m time rid dataHash recType meta h1 h2 h3 h4]
              constructor
              · by_cases ham : a = m
                · subst ham; simpa using Nat.lt_succ_of_lt hi
                · simpa [ham] using hi
              · have hne : ¬(a = m ∧ i = s.patientRecordCount m) := by
                  rintro ⟨rfl, rfl⟩; omega
                simp [hne, hin]
            · rw [exec1_of_error s _ Err.AlreadyExists
                (by simp [step, addMedicalRecord, h1, h2, h3]; simpa using h4)]
              exact ⟨hi, hin⟩
          · rw [exec1_of_error s _ Err.InvalidArgument
              (by simp [step, addMedicalRecord, h1, h2, h3])]
            exact ⟨hi, hin⟩
        · rw [exec1_of_error s _ Err.InvalidArgument
            (by simp [step, addMedicalRecord, h1, h2])]
          exact ⟨hi, hin⟩
      · rw [exec1_of_error s _ Err.Unauthorized (by simp [step, addMedicalRecord, h1])]
        exact ⟨hi, hin⟩
  | update m idx dataHash meta =>
      by_cases h1 : gatePasses s m
      · by_cases h2 : idx < s.patientRecordCount m
        · by_cases h3 : (s.patientRecords m idx).isActive = true
          · by_cases h4 : dataHash ≠ ""
            · rw [update_success_state s m idx dataHash meta h1 h2 h3 h4]
              refine ⟨hi, ?_⟩
              by_cases hc : a = m ∧ i = idx
              · obtain ⟨rfl, rfl⟩ := hc
                rw [hin] at h3; simp at h3
              · simp [hc, hin]
            · rw [exec1_of_error s _ Err.InvalidArgument
                (by simp [step, updateMedicalRecord, h1, h2, h3, h4])]
              exact ⟨hi, hin⟩
          · rw [exec1_of_error s _ Err.InvalidState
              (by simp [step, updateMedicalRecord, h1, h2, h3])]
            exact ⟨hi, hin⟩
        · rw [exec1_of_error s _ Err.OutOfRange
            (by simp [step, updateMedicalRecord, h1, h2])]
          exact ⟨hi, hin⟩
      · rw [exec1_of_error s _ Err.Unauthorized (by simp [step, updateMedicalRecord, h1])]
        exact ⟨hi, hin⟩
  | deactivate m idx =>
      by_cases h1 : gatePasses s m
      · by_cases h2 : idx < s.patientRecordCount m
        · by_cases h3 : (s.patientRecords m idx).isActive = true
          · rw [deactivate_success_state s m idx h1 h2 h3]
            refine ⟨hi, ?_⟩
            by_cases hc : a = m ∧ i = idx <;> simp [hc, hin]
          · rw [exec1_of_error s _ Err.InvalidState
              (by simp [step, deactivateMedicalRecord, h1, h2, h3])]
            exact ⟨hi, hin⟩
        · rw [exec1_of_error s _ Err.OutOfRange
            (by simp [step, deactivateMedicalRecord, h1, h2])]
          exact ⟨hi, hin⟩
      · rw [exec1_of_error s _ Err.Unauthorized
          (by simp [step, deactivateMedicalRecord, h1])]
        exact ⟨hi, hin⟩

/-- A whole call sequence preserves "record `(a, i)` exists and is inactive". -/
theorem inactive_stable_exec (s : ContractState) (a i : Nat) (ops : List Op)
    (hi : i < s.patientRecordCount a)
    (hin : (s.patientRecords a i).isActive = false) :
    i < (exec s ops).patientRecordCount a ∧
    ((exec s ops).patientRecords a i).isActive = false := by
  induction ops generalizing s with
  | nil => exact ⟨hi, hin⟩
  | cons op ops ih =>
      have h1 := inactive_stable_exec1 s a i op hi hin
      exact ih (exec1 s op) h1.1 h1.2

/-- Claim C3: once a stored record's `isActive` is false, no sequence of calls
ever sets it back to true; and `deactivateMedicalRecord` on an
already-inactive record fails with `InvalidState`, leaving `isActive` false. -/
theorem deactivation_one_way (s : ContractState) (a i : Nat)
    (hi : i < s.patientRecordCount a)
    (hin : (s.patientRecords a i).isActive = false) :
    (∀ ops : List Op, ((exec s ops).patientRecords a i).isActive = false) ∧
    (gatePasses s a →
        deactivateMedicalRecord s a i = .error .InvalidState ∧
        ((exec1 s (Op.deactivate a i)).patientRecords a i).isActive = false) := by
  refine ⟨fun ops => (inactive_stable_exec s a i ops hi hin).2, fun hg => ?_⟩
  have he : deactivateMedicalRecord s a i = .error .InvalidState := by
    simp [deactivateMedicalRecord, hg, hi, hin]
  refine ⟨he, ?_⟩
  rw [exec1_of_error s _ Err.InvalidState (by simpa [step] using he)]
  exact hin

/-- Witness for C3: deactivating the already-deactivated record 0 of address 0
fails with `InvalidState`. -/
theorem deactivation_one_way_witness :
    deactivateMedicalRecord
      (exec (initialState 0) [Op.add 0 1 "r1" "h1" "lab" "m", Op.deactivate 0 0])
      0 0 = Except.error Err.InvalidState :=
  ((deactivation_one_way
      (exec (initialState 0) [Op.add 0 1 "r1" "h1" "lab" "m", Op.deactivate 0 0])
      0 0 (by decide) (by decide)).2 (Or.inr (by decide))).1

/-! ## Global record-id uniqueness invariant -/

/-- `RecordsInv` only depends on the counts, the used-id set and the stored
ids, so it transfers along any call that preserves those. -/
theorem recordsInv_transfer (s s' : ContractState)
    (hc : ∀ a, s'.patientRecordCount a = s.patientRecordCount a)
    (he : ∀ r, s'.recordIdExists r = s.recordIdExists r)
    (hr : ∀ a i, (s'.patientRecords a i).recordId = (s.patientRecords a i).recordId)
    (h : RecordsInv s) : RecordsInv s' := by
  obtain ⟨h1, h2, h3, h4⟩ := h
  refine ⟨fun a i hi => ?_, fun a i hi => ?_, fun rid hrid => ?_,
    fun a i b j hi hj hne => ?_⟩
  · rw [he, hr]; exact h1 a i (by rw [hc] at hi; exact hi)
  · rw [hr]; exact h2 a i (by rw [hc] at hi; exact hi)
  · obtain ⟨a, i, hi, hid⟩ := h3 rid (by rw [he] at hrid; exact hrid)
    exact ⟨a, i, by rw [hc]; exact hi, by rw [hr]; exact hid⟩
  · rw [hr, hr]
    exact h4 a i b j (by rw [hc] at hi; exact hi) (by rw [hc] at hj; exact hj) hne

/-- `RecordsInv` holds at deployment. -/
theorem recordsInv_init (d : Nat) : RecordsInv (initialState d) := by
  refine ⟨?_, ?_, ?_, ?_⟩ <;> intros <;> simp_all [initialState]

/-- `RecordsInv` is preserved by every call. -/
theorem recordsInv_exec1 (s : ContractState) (op : Op) (h : RecordsInv s) :
    RecordsInv (exec1 s op) := by
  cases op with
  | setRegistry sender addr =>
      refine recordsInv_transfer s _ ?_ ?_ ?_ h <;>
        (intros; simp only [exec1, step, setPatientRegistryContract];
          split_ifs <;> rfl)
  | authorize sender addr =>
      refine recordsInv_transfer s _ ?_ ?_ ?_ h <;>
        (intros; simp only [exec1, step, authorizePatient]; split_ifs <;> rfl)
  | deauthorize sender addr =>
      refine recordsInv_transfer s _ ?_ ?_ ?_ h <;>
        (intros; simp only [exec1, step, deauthorizePatient]; split_ifs <;> rfl)
  | transferOwner sender addr =>
      refine recordsInv_transfer s _ ?_ ?_ ?_ h <;>
        (intros; simp only [exec1, step, transferOwnership]; split_ifs <;> rfl)
  | update m idx dataHash meta =>
      by_cases h1 : gatePasses s m
      · by_cases h2 : idx < s.patientRecordCount m
        · by_cases h3 : (s.patientRecords m idx).isActive = true
          · by_cases h4 : dataHash ≠ ""
            · rw [update_success_state s m idx dataHash meta h1 h2 h3 h4]
              refine recordsInv_transfer s _ (fun a => rfl) (fun r => rfl) ?_ h
              intro a i
              by_cases hc : a = m ∧ i = idx <;> simp [hc]
            · rw [exec1_of_error s _ Err.InvalidArgument
                (by simp [step, updateMedicalRecord, h1, h2, h3, h4])]
              exact h
          · rw [exec1_of_error s _ Err.InvalidState
              (by simp [step, updateMedicalRecord, h1, h2, h3])]
            exact h
        · rw [exec1_of_error s _ Err.OutOfRange
            (by simp [step, updateMedicalRecord, h1, h2])]
          exact h
      · rw [exec1_of_error s _ Err.Unauthorized
          (by simp [step, updateMedicalRecord, h1])]
        exact h
  | deactivate m idx =>
      by_cases h1 : gatePasses s m
      · by_cases h2 : idx < s.patientRecordCount m
        · by_cases h3 : (s.patientRecords m idx).isActive = true
          · rw [deactivate_success_state s m idx h1 h2 h3]
            refine recordsInv_transfer s _ (fun a => rfl) (fun r => rfl) ?_ h
            intro a i
            by_cases hc : a = m ∧ i = idx <;> simp [hc]
          · rw [exec1_of_error s _ Err.InvalidState
              (by simp [step, deactivateMedicalRecord, h1, h2, h3])]
            exact h
        · rw [exec1_of_error s _ Err.OutOfRange
            (by simp [step, deactivateMedicalRecord, h1, h2])]
          exact h
      · rw [exec1_of_error s _ Err.Unauthorized
          (by simp [step, deactivateMedicalRecord, h1])]
        exact h
  | add m time rid dataHash recType meta =>
      by_cases h1 : gatePasses s m
      · by_cases h2 : rid ≠ ""
        · by_cases h3 : dataHash ≠ ""
          · by_cases h4 : s.recordIdExists rid = false
            · rw [add_success_state s m time rid dataHash recType meta h1 h2 h3 h4]
              obtain ⟨inv1, inv2, inv3, inv4⟩ := h
              have hcount : ∀ a i,
                  i < (if a = m then s.patientRecordCount a + 1
                        else s.patientRecordCount a) →
                  ¬(a = m ∧ i = s.patientRecordCount m) →
                  i < s.patientRecordCount a := by
                intro a i hi hnew
                by_cases ham : a = m
                · subst ham
                  have hne : i ≠ s.patientRecordCount a := fun hh => hnew ⟨rfl, hh⟩
                  simp at hi
                  omega
                · simpa [ham] using hi
              refine ⟨?_, ?_, ?_, ?_⟩
              · intro a i hi
                by_cases hnew : a = m ∧ i = s.patientRecordCount m
                · simp [hnew]
                · have hlt := hcount a i (by simpa using hi) hnew
                  have hold := inv1 a i hlt
                  simp [hnew]
                  exact Or.inr hold
              · intro a i hi
                by_cases hnew : a = m ∧ i = s.patientRecordCount m
                · simpa [hnew] using h2
                · have hlt := hcount a i (by simpa using hi) hnew
                  simpa [hnew] using inv2 a i hlt
              · intro r hr
                by_cases hrr : r = rid
                · subst hrr
                  refine ⟨m, s.patientRecordCount m, by simp, by simp⟩
                · simp [hrr] at hr
                  obtain ⟨a, i, hi, hid⟩ := inv3 r hr
                  refine ⟨a, i, ?_, ?_⟩
                  · by_cases ham : a = m
                    · subst ham; simpa using Nat.lt_succ_of_lt hi
                    · simpa [ham] using hi
                  · have hnew : ¬(a = m ∧ i = s.patientRecordCount m) := by
                      rintro ⟨rfl, rfl⟩; omega
                    simpa [hnew] using hid
              · intro a i b j hi hj hne
                by_cases hna : a = m ∧ i = s.patientRecordCount m
                · by_cases hnb : b = m ∧ j = s.patientRecordCount m
                  · obtain ⟨ha1, ha2⟩ := hna
                    obtain ⟨hb1, hb2⟩ := hnb
                    rcases hne with hne | hne
                    · exact absurd (ha1.trans hb1.symm) hne
                    · exact absurd (ha2.trans hb2.symm) hne
                  · have hj' := hcount b j (by simpa using hj) hnb
                    have hbex := inv1 b j hj'
                    simp [hna, hnb]
                    intro heq
                    rw [← heq, h4] at hbex
                    simp at hbex
                · by_cases hnb : b = m ∧ j = s.patientRecordCount m
                  · have hi' := hcount a i (by simpa using hi) hna
                    have haex := inv1 a i hi'
                    simp [hna, hnb]
                    intro heq
                    rw [heq, h4] at haex
                    simp at haex
                  · have hi' := hcount a i (by simpa using hi) hna
                    have hj' := hcount b j (by simpa using hj) hnb
                    simpa [hna, hnb] using inv4 a i b j hi' hj' hne
            · rw [exec1_of_error s _ Err.AlreadyExists
                (by simp [step, addMedicalRecord, h1, h2, h3]; simpa using h4)]
              exact h
          · rw [exec1_of_error s _ Err.InvalidArgument
              (by simp [step, addMedicalRecord, h1, h2, h3])]
            exact h
        · rw [exec1_of_error s _ Err.InvalidArgument
            (by simp [step, addMedicalRecord, h1, h2])]
          exact h
      · rw [exec1_of_error s _ Err.Unauthorized
          (by simp [step, addMedicalRecord, h1])]
        exact h

/-- `RecordsInv` is preserved by call sequences. -/
theorem recordsInv_exec (s : ContractState) (ops : List Op) (h : RecordsInv s) :
    RecordsInv (exec s ops) := by
  induction ops generalizing s with
  | nil => exact h
  | cons op ops ih => exact ih _ (recordsInv_exec1 s op h)

/-- `RecordsInv` holds in every reachable state. -/
theorem recordsInv_reachable (d : Nat) (s : ContractState) (h : Reachable d s) :
    RecordsInv s := by
  obtain ⟨ops, rfl⟩ := h
  exact recordsInv_exec _ ops (recordsInv_init d)

/-- Claim C1: in every reachable state no two records, under any addresses,
share a `recordId`; `addMedicalRecord` with a `recordId` already stored under
ANY address fails with `AlreadyExists`; and an authorized caller with a fresh
`recordId` and non-empty arguments succeeds. -/
theorem global_recordId_uniqueness (d : Nat) (s : ContractState)
    (hreach : Reachable d s) :
    (∀ a i b j, i < s.patientRecordCount a → j < s.patientRecordCount b →
        (a ≠ b ∨ i ≠ j) →
        (s.patientRecords a i).recordId ≠ (s.patientRecords b j).recordId) ∧
    (∀ sender time rid dataHash recType meta b j,
        gatePasses s sender → dataHash ≠ "" →
        j < s.patientRecordCount b → (s.patientRecords b j).recordId = rid →
        addMedicalRecord s sender time rid dataHash recType meta
          = .error .AlreadyExists) ∧
    (∀ sender time rid dataHash recType meta,
        gatePasses s sender → rid ≠ "" → dataHash ≠ "" →
        (∀ b j, j < s.patientRecordCount b →
            (s.patientRecords b j).recordId ≠ rid) →
        (addMedicalRecord s sender time rid dataHash recType meta).isOk
          = true) := by
  obtain ⟨inv1, inv2, inv3, inv4⟩ := recordsInv_reachable d s hreach
  refine ⟨inv4, ?_, ?_⟩
  · intro sender time rid dataHash recType meta b j hg hdh hj hid
    have hex : s.recordIdExists rid = true := by rw [← hid]; exact inv1 b j hj
    have hrid : rid ≠ "" := by rw [← hid]; exact inv2 b j hj
    simp [addMedicalRecord, hg, hrid, hdh, hex]
  · intro sender time rid dataHash recType meta hg hrid hdh hfresh
    have hex : s.recordIdExists rid = false := by
      cases hb : s.recordIdExists rid
      · rfl
      · obtain ⟨a, i, hi, hid⟩ := inv3 rid hb
        exact absurd hid (hfresh a i hi)
    simp [addMedicalRecord, hg, hrid, hdh, hex, Except.isOk, Except.toBool]

/-- Witness for C1: re-adding the id "r1" under the owner fails with
`AlreadyExists` in the reachable state holding one record with that id. -/
theorem global_recordId_uniqueness_witness :
    addMedicalRecord (exec (initialState 0) [Op.add 0 1 "r1" "h1" "lab" "m"])
      0 7 "r1" "h2" "lab" "m" = Except.error Err.AlreadyExists :=
  (global_recordId_uniqueness 0 _ ⟨[Op.add 0 1 "r1" "h1" "lab" "m"], rfl⟩).2.1
    0 7 "r1" "h2" "lab" "m" 0 0 (by decide) (by decide) (by decide) (by decide)

/-! ## Record-count accounting -/

/-- Running a concatenated call sequence is running the two parts in order. -/
theorem exec_append (s : ContractState) (ops more : List Op) :
    exec s (ops ++ more) = exec (exec s ops) more := by
  induction ops generalizing s with
  | nil => rfl
  | cons op ops ih => simp [exec, ih]

/-- One call changes an address's count by exactly the success of an `add`
by that address. -/
theorem count_exec1 (s : ContractState) (a : Nat) (op : Op) :
    (exec1 s op).patientRecordCount a
      = s.patientRecordCount a + (if isSuccAddBy s a op then 1 else 0) := by
  cases op with
  | setRegistry sender addr =>
      simp only [isSuccAddBy, exec1, step, setPatientRegistryContract]
      split_ifs <;> simp_all
  | authorize sender addr =>
      simp only [isSuccAddBy, exec1, step, authorizePatient]
      split_ifs <;> simp_all
  | deauthorize sender addr =>
      simp only [isSuccAddBy, exec1, step, deauthorizePatient]
      split_ifs <;> simp_all
  | transferOwner sender addr =>
      simp only [isSuccAddBy, exec1, step, transferOwnership]
      split_ifs <;> simp_all
  | update m idx dataHash meta =>
      simp only [isSuccAddBy, exec1, step, updateMedicalRecord]
      split_ifs <;> simp_all
  | deactivate m idx =>
      simp only [isSuccAddBy, exec1, step, deactivateMedicalRecord]
      split_ifs <;> simp_all
  | add m time rid dataHash recType meta =>
      by_cases h1 : gatePasses s m
      · by_cases h2 : rid ≠ ""
        · by_cases h3 : dataHash ≠ ""
          · by_cases h4 : s.recordIdExists rid = false
            · rw [add_success_state s m time rid dataHash recType meta h1 h2 h3 h4]
              have hok : (addMedicalRecord s m time rid dataHash recType meta).isOk
                  = true := by
                simp [addMedicalRecord, h1, h2, h3, h4, Except.isOk, Except.toBool]
              by_cases ham : a = m
              · subst ham; simp [isSuccAddBy, hok]
              · simp [isSuccAddBy, ham, Ne.symm ham]
            · have he : addMedicalRecord s m time rid dataHash recType meta
                  = .error .AlreadyExists := by
                simp [addMedicalRecord, h1, h2, h3]; simpa using h4
              rw [exec1_of_error s _ Err.AlreadyExists (by simpa [step] using he)]
              simp [isSuccAddBy, he, Except.isOk, Except.toBool]
          · have he : addMedicalRecord s m time rid dataHash recType meta
                = .error .InvalidArgument := by
              simp [addMedicalRecord, h1, h2, h3]
            rw [exec1_of_error s _ Err.InvalidArgument (by simpa [step] using he)]
            simp [isSuccAddBy, he, Except.isOk, Except.toBool]
        · have he : addMedicalRecord s m time rid dataHash recType meta
              = .error .InvalidArgument := by
            simp [addMedicalRecord, h1, h2]
          rw [exec1_of_error s _ Err.InvalidArgument (by simpa [step] using he)]
          simp [isSuccAddBy, he, Except.isOk, Except.toBool]
      · have he : addMedicalRecord s m time rid dataHash recType meta
            = .error .Unauthorized := by
          simp [addMedicalRecord, h1]
        rw [exec1_of_error s _ Err.Unauthorized (by simpa [step] using he)]
        simp [isSuccAddBy, he, Except.isOk, Except.toBool]

/-- An address's count after a call sequence is its count before plus the
number of successful `add` calls by that address in the sequence. -/
theorem count_exec (s : ContractState) (a : Nat) (ops : List Op) :
    (exec s ops).patientRecordCount a
      = s.patientRecordCount a + numSuccAdds s a ops := by
  induction ops generalizing s with
  | nil => simp [exec, numSuccAdds]
  | cons op ops ih =>
      show (exec (exec1 s op) ops).patientRecordCount a = _

      rw [ih (exec1 s op), count_exec1, numSuccAdds]
      omega

/-- Incrementing a function at one member of a duplicate-free list increments
the sum of its values over the list by one. -/
theorem sum_map_incr (f : Nat → Nat) (m : Nat) :
    ∀ l : List Nat, l.Nodup → m ∈ l →
      (l.map fun a => if a = m then f a + 1 else f a).sum = (l.map f).sum + 1 := by
  intro l
  induction l with
  | nil => intro _ hm; cases hm
  | cons b t ih =>
      intro hnd hm
      rw [List.nodup_cons] at hnd
      by_cases hbm : b = m
      · subst hbm
        have ht : t.map (fun a => if a = b then f a + 1 else f a) = t.map f := by
          apply List.map_congr_left
          intro x hx
          have hne : x ≠ b := fun hh => hnd.1 (hh ▸ hx)
          simp [hne]
        simp [ht]
        omega
      · have hmt : m ∈ t := by
          cases hm with
          | head => exact absurd rfl hbm
          | tail _ hmem => exact hmem
        simp only [List.map_cons, List.sum_cons, ih hnd.2 hmt, if_neg hbm]
        omega

/-- The global total equals the sum of per-address counts over every
duplicate-free list of addresses covering the nonzero counts. -/
def TotalInv (s : ContractState) : Prop :=
  ∀ l : List Nat, l.Nodup → (∀ a, s.patientRecordCount a ≠ 0 → a ∈ l) →
    s.totalRecordsStored = (l.map s.patientRecordCount).sum

/-- `TotalInv` only depends on the counts and the total. -/
theorem totalInv_transfer (s s' : ContractState)
    (hc : ∀ a, s'.patientRecordCount a = s.patientRecordCount a)
    (ht : s'.totalRecordsStored = s.totalRecordsStored)
    (h : TotalInv s) : TotalInv s' := by
  intro l hnd hcov
  have hmap : l.map s'.patientRecordCount = l.map s.patientRecordCount :=
    List.map_congr_left (fun a _ => hc a)
  rw [ht, hmap]
  exact h l hnd (fun a ha => hcov a (by rw [hc]; exact ha))

/-- `TotalInv` holds at deployment. -/
theorem totalInv_init (d : Nat) : TotalInv (initialState d) := by
  intro l _ _
  show (0 : Nat) = (l.map fun _ => 0).sum
  induction l with
  | nil => rfl
  | cons b t ih => simp [← ih]

/-- `TotalInv` is preserved by every call. -/
theorem totalInv_exec1 (s : ContractState) (op : Op) (h : TotalInv s) :
    TotalInv (exec1 s op) := by
  by_cases hadd : ∃ m time rid dataHash recType meta,
      op = Op.add m time rid dataHash recType meta ∧
      gatePasses s m ∧ rid ≠ "" ∧ dataHash ≠ "" ∧ s.recordIdExists rid = false
  · obtain ⟨m, time, rid, dataHash, recType, meta, rfl, h1, h2, h3, h4⟩ := hadd
    rw [add_success_state s m time rid dataHash recType meta h1 h2 h3 h4]
    intro l hnd hcov
    have hm : m ∈ l := by
      apply hcov m
      simp
    have hcov' : ∀ a, s.patientRecordCount a ≠ 0 → a ∈ l := by
      intro a ha
      apply hcov a
      by_cases ham : a = m
      · simp [ham]
      · simpa [ham] using ha
    show s.totalRecordsStored + 1
        = (l.map fun a => if a = m then s.patientRecordCount a + 1
            else s.patientRecordCount a).sum
    rw [sum_map_incr s.patientRecordCount m l hnd hm, h l hnd hcov']
  · refine totalInv_transfer s _ ?_ ?_ h
    all_goals
      cases op with
      | add m time rid dataHash recType meta =>
          by_cases h1 : gatePasses s m
          · by_cases h2 : rid ≠ ""
            · by_cases h3 : dataHash ≠ ""
              · by_cases h4 : s.recordIdExists rid = false
                · exact absurd ⟨m, time, rid, dataHash, recType, meta, rfl,
                    h1, h2, h3, h4⟩ hadd
                · rw [exec1_of_error s _ Err.AlreadyExists
                    (by simp [step, addMedicalRecord, h1, h2, h3]; simpa using h4)]
                  try (intros; rfl)
              · rw [exec1_of_error s _ Err.InvalidArgument
                  (by simp [step, addMedicalRecord, h1, h2, h3])]
                try (intros; rfl)
            · rw [exec1_of_error s _ Err.InvalidArgument
                (by simp [step, addMedicalRecord, h1, h2])]
              try (intros; rfl)
          · rw [exec1_of_error s _ Err.Unauthorized
              (by simp [step, addMedicalRecord, h1])]
            try (intros; rfl)
      | setRegistry sender addr =>
          simp only [exec1, step, setPatientRegistryContract]
          split_ifs <;> (try (intros; rfl))
      | authorize sender addr =>
          simp only [exec1, step, authorizePatient]
          split_ifs <;> (try (intros; rfl))
      | deauthorize sender addr =>
          simp only [exec1, step, deauthorizePatient]
          split_ifs <;> (try (intros; rfl))
      | transferOwner sender addr =>
          simp only [exec1, step, transferOwnership]
          split_ifs <;> (try (intros; rfl))
      | update m idx dataHash meta =>
          simp only [exec1, step, updateMedicalRecord]
          split_ifs <;> (try (intros; rfl))
      | deactivate m idx =>
          simp only [exec1, step, deactivateMedicalRecord]
          split_ifs <;> (try (intros; rfl))

/-- `TotalInv` is preserved by call sequences. -/
theorem totalInv_exec (s : ContractState) (ops : List Op) (h : TotalInv s) :
    TotalInv (exec s ops) := by
  induction ops generalizing s with
  | nil => exact h
  | cons op ops ih => exact ih _ (totalInv_exec1 s op h)

/-- Claim C9: an address's record count never decreases across further calls,
it equals the number of successful `add` calls made by that address since
deployment, and the global total equals the sum of per-address counts over
any duplicate-free address list covering the nonzero counts. -/
theorem recordCount_accounting (d a : Nat) (ops more : List Op)
    (l : List Nat) (hnd : l.Nodup)
    (hcov : ∀ b, (exec (initialState d) ops).patientRecordCount b ≠ 0 → b ∈ l) :
    getPatientRecordCount (exec (initialState d) ops) a
        ≤ getPatientRecordCount (exec (initialState d) (ops ++ more)) a ∧
    getPatientRecordCount (exec (initialState d) ops) a
        = numSuccAdds (initialState d) a ops ∧
    getTotalRecords (exec (initialState d) ops)
        = (l.map (exec (initialState d) ops).patientRecordCount).sum := by
  refine ⟨?_, ?_, ?_⟩
  · show (exec (initialState d) ops).patientRecordCount a
        ≤ (exec (initialState d) (ops ++ more)).patientRecordCount a
    rw [exec_append, count_exec (exec (initialState d) ops) a more]
    exact Nat.le_add_right _ _
  · show (exec (initialState d) ops).patientRecordCount a = _
    rw [count_exec]
    simp [initialState]
  · exact totalInv_exec (initialState d) ops (totalInv_init d) l hnd hcov

/-- Witness for C9 after one successful `add` by the deployer. -/
theorem recordCount_accounting_witness :
    getPatientRecordCount (exec (initialState 0) [Op.add 0 1 "r1" "h1" "lab" "m"]) 0
      = numSuccAdds (initialState 0) 0 [Op.add 0 1 "r1" "h1" "lab" "m"] :=
  (recordCount_accounting 0 0 [Op.add 0 1 "r1" "h1" "lab" "m"] [] [0]
    (by simp)
    (by
      intro b hb
      by_cases hb0 : b = 0
      · simp [hb0]
      · exfalso
        apply hb
        rw [count_exec]
        have hne : (0 : Nat) ≠ b := fun hh => hb0 hh.symm
        simp [numSuccAdds, isSuccAddBy, initialState, hne])).2.1

/-! ## Active-id listing -/

/-- The second pass produces exactly one entry per active index, so its length
is the first pass's count (the array size the contract allocates). -/
theorem collectActiveIds_length (s : ContractState) (p : Nat) :
    ∀ n, (collectActiveIds s p n).length = countActive s p n := by
  intro n
  induction n with
  | zero => rfl
  | succ n ih =>
      by_cases h : (s.patientRecords p n).isActive <;>
        simp [collectActiveIds, countActive, h, ih]

/-- The two-pass collection equals the filter-then-map description. -/
theorem collectActiveIds_eq_spec (s : ContractState) (p : Nat) :
    ∀ n, collectActiveIds s p n
      = ((List.range n).filter (fun i => (s.patientRecords p i).isActive)).map
          (fun i => (s.patientRecords p i).recordId) := by
  intro n
  induction n with
  | zero => rfl
  | succ n ih =>
      rw [collectActiveIds, List.range_succ, List.filter_append, List.map_append, ih]
      by_cases h : (s.patientRecords p n).isActive <;> simp [h]

/-- Claim C6: queried by the patient itself or the contract owner,
`getPatientRecordIds` returns exactly the recordIds of the patient's active
records in original creation (index) order — the filter-map of the index
range — whose members are precisely the ids of active records; the allocated
size (first pass) matches the returned length. -/
theorem getRecordIds_active_in_order (s : ContractState) (sender patient : Nat)
    (hacc : sender = patient ∨ sender = s.owner) :
    getPatientRecordIds s sender patient = .ok (activeIdsSpec s patient) ∧
    (∀ r, r ∈ activeIdsSpec s patient ↔
        ∃ j, j < s.patientRecordCount patient ∧
          (s.patientRecords patient j).isActive = true ∧
          (s.patientRecords patient j).recordId = r) ∧
    countActive s patient (s.patientRecordCount patient)
      = (activeIdsSpec s patient).length := by
  refine ⟨?_, ?_, ?_⟩
  · rw [getPatientRecordIds, if_pos hacc, collectActiveIds_eq_spec]
    rfl
  · intro r
    simp only [activeIdsSpec, List.mem_map, List.mem_filter, List.mem_range]
    constructor
    · rintro ⟨j, ⟨hj, hact⟩, hid⟩
      exact ⟨j, hj, by simpa using hact, hid⟩
    · rintro ⟨j, hj, hact, hid⟩
      exact ⟨j, ⟨hj, by simpa using hact⟩, hid⟩
  · rw [activeIdsSpec, ← collectActiveIds_eq_spec, collectActiveIds_length]

/-- Witness for C6, the spec's own example: add ids r1, r2, r3 under one
address, deactivate index 1; the listing is [r1, r3]. -/
theorem getRecordIds_active_in_order_witness :
    getPatientRecordIds
      (exec (initialState 0)
        [Op.add 0 1 "r1" "h1" "lab" "m", Op.add 0 2 "r2" "h2" "lab" "m",
         Op.add 0 3 "r3" "h3" "lab" "m", Op.deactivate 0 1]) 0 0
      = .ok ["r1", "r3"] := by
  rw [(getRecordIds_active_in_order
    (exec (initialState 0)
      [Op.add 0 1 "r1" "h1" "lab" "m", Op.add 0 2 "r2" "h2" "lab" "m",
       Op.add 0 3 "r3" "h3" "lab" "m", Op.deactivate 0 1]) 0 0 (Or.inl rfl)).1]
  rfl

end MedicalRecords
